import Mathlib

set_option maxRecDepth 8000

/-!
Shallow embedding of the dangerous-command classifier
(internal/safety/dangerous.go) and of the undo advisor
(internal/undo/undo.go) from the aiask repository.

Both Go files drive their behaviour through tables of compiled regular
expressions, so the embedding starts with a small backtracking regex
matcher modelling the Go regexp package (RE2 syntax with Perl-style
leftmost-first submatch semantics, which is what Go documents for
submatches) on exactly the features those two tables use.  Every
quantifier in both tables applies to a single-character class, so the
Kleene star is specialised to a character predicate, which keeps the
matcher structurally recursive.  Case folding under the Go `(?i)` flag
is modelled on ASCII letters; all commands exercised by the repository
and its spec are ASCII.
-/

/-- Capture environment: group index to captured character list.  Go's
FindStringSubmatch reports the empty string for a group that did not
participate in the match, which is the default here as well. -/
def Caps : Type := Nat → List Char

/-- No group has captured anything yet. -/
def capsEmpty : Caps := fun _ => []

/-- Record the text captured by group `i`. -/
def capsSet (k : Caps) (i : Nat) (v : List Char) : Caps :=
  fun j => if j = i then v else k j

/-- Regex abstract syntax for the features used by the two Go tables:
single-character classes, concatenation, alternation, a star over a
character class, numbered capture groups, and the end-of-text anchor
`$` (Go matches `$` at end of text when `(?m)` is off). -/
inductive Regex : Type where
  | eps : Regex
  | cls : (Char → Bool) → Regex
  | cat : Regex → Regex → Regex
  | alt : Regex → Regex → Regex
  | starCls : (Char → Bool) → Regex
  | group : Nat → Regex → Regex
  | eos : Regex

/-- Remainders left after the greedy star over a character class
consumes some run of matching characters, longest consumption first,
which is the preference order of a greedy quantifier. -/
def starSplits (p : Char → Bool) : List Char → List (List Char)
  | [] => [[]]
  | c :: s => if p c then starSplits p s ++ [c :: s] else [c :: s]

/-- Backtracking matcher: all (remaining input, captures) pairs for a
match of `r` against a prefix of the input, in backtracking priority
order (alternation tries its left branch first, greedy stars consume
as much as possible first).  The head of the list is therefore the
match Go's leftmost-first submatch semantics selects. -/
def run : Regex → List Char → Caps → List (List Char × Caps)
  | .eps, s, k => [(s, k)]
  | .cls _, [], _ => []
  | .cls p, c :: s, k => if p c then [(s, k)] else []
  | .cat a b, s, k => (run a s k).flatMap fun x => run b x.1 x.2
  | .alt a b, s, k => run a s k ++ run b s k
  | .starCls p, s, k => (starSplits p s).map fun t => (t, k)
  | .group i r, s, k =>
      (run r s k).map fun x => (x.1, capsSet x.2 i (s.take (s.length - x.1.length)))
  | .eos, s, k => if s.isEmpty then [(s, k)] else []

/-- Unanchored search, as Go's MatchString does: try a match starting
at each position of the input, including the empty position at the
end. -/
def searchFrom (r : Regex) : List Char → Bool
  | [] => !(run r [] capsEmpty).isEmpty
  | c :: t => !(run r (c :: t) capsEmpty).isEmpty || searchFrom r t

/-- Go regexp.MatchString: does the pattern match anywhere in `s`? -/
def matchString (r : Regex) (s : String) : Bool := searchFrom r s.data

/-- Go regexp.FindStringSubmatch for a pattern whose source starts
with `^` (every entry of the undo table does): the leading anchor is
modelled by attempting the match at the start of the text only, and
the backtracking-priority head is the match Go reports. -/
def findStringSubmatch (r : Regex) (s : String) : Option (List Char × Caps) :=
  (run r s.data capsEmpty).head?

/-! ### Character classes of the Go patterns -/

/-- Go regexp `\s`, which is the RE2 class `[\t\n\f\r ]`. -/
def goSpace (c : Char) : Bool :=
  c == '\t' || c == '\n' || c == '\x0c' || c == '\r' || c == ' '

/-- Go regexp `\S`. -/
def goNotSpace (c : Char) : Bool := !goSpace c

/-- The class `[a-z]` in a case-sensitive pattern. -/
def lowerAZ (c : Char) : Bool := decide ('a' ≤ c) && decide (c ≤ 'z')

/-- The class `[a-z]` under the `(?i)` flag: ASCII letters of either
case. -/
def letterI (c : Char) : Bool :=
  decide ('a' ≤ c.toLower) && decide (c.toLower ≤ 'z')

/-- Go regexp `\w`, the class `[0-9A-Za-z_]`. -/
def wordChar (c : Char) : Bool :=
  (decide ('0' ≤ c) && decide (c ≤ '9')) ||
  (decide ('a' ≤ c) && decide (c ≤ 'z')) ||
  (decide ('A' ≤ c) && decide (c ≤ 'Z')) || c == '_'

/-- Go regexp `.` with `(?s)` off: any character except newline. -/
def dotAny (c : Char) : Bool := c != '\n'

/-- The class `[sq]` under `(?i)`. -/
def sqI (c : Char) : Bool := c.toLower == 's' || c.toLower == 'q'

/-- The class `[gG]` in a case-sensitive pattern. -/
def gOrG (c : Char) : Bool := c == 'g' || c == 'G'

/-! ### Combinators translating regex source text -/

/-- A literal character in a case-sensitive pattern. -/
def rchar (c : Char) : Regex := .cls fun d => d == c

/-- A literal character under the `(?i)` flag (ASCII folding). -/
def rcharI (c : Char) : Regex := .cls fun d => d.toLower == c.toLower

/-- Concatenation of a sequence of regexes. -/
def rcat : List Regex → Regex
  | [] => .eps
  | r :: rs => .cat r (rcat rs)

/-- A literal string in a case-sensitive pattern. -/
def rstr (s : String) : Regex := rcat (s.data.map rchar)

/-- A literal string under the `(?i)` flag. -/
def rstrI (s : String) : Regex := rcat (s.data.map rcharI)

/-- A greedy `?` (the quantified part is preferred, as in Go). -/
def ropt (r : Regex) : Regex := .alt r .eps

/-- A greedy `+` over a character class. -/
def rplus (p : Char → Bool) : Regex := .cat (.cls p) (.starCls p)

/-! ### internal/safety/dangerous.go -/

/-- DangerLevel represents the danger level of a command:
`Safe < Caution < Dangerous < Critical` (Go iota order). -/
inductive DangerLevel : Type where
  | Safe : DangerLevel
  | Caution : DangerLevel
  | Dangerous : DangerLevel
  | Critical : DangerLevel
deriving DecidableEq

/-- The underlying Go integer of a DangerLevel. -/
def DangerLevel.toNat : DangerLevel → Nat
  | .Safe => 0
  | .Caution => 1
  | .Dangerous => 2
  | .Critical => 3

instance : LT DangerLevel := ⟨fun a b => a.toNat < b.toNat⟩

instance : LE DangerLevel := ⟨fun a b => a.toNat ≤ b.toNat⟩

instance (a b : DangerLevel) : Decidable (a < b) := Nat.decLt a.toNat b.toNat

instance (a b : DangerLevel) : Decidable (a ≤ b) := Nat.decLe a.toNat b.toNat

/-- DangerousPattern represents a pattern that indicates a dangerous
command. -/
structure DangerousPattern : Type where
  Pattern : Regex
  Description : String
  Level : DangerLevel

/-- First Critical entry of the table:
`(?i)rm\s+(-[a-z]*f[a-z]*\s+)?(-[a-z]*r[a-z]*\s+)?(/|\*|~)`. -/
def patRmCriticalTarget : DangerousPattern :=
  { Pattern := rcat [rstrI "rm", rplus goSpace,
      ropt (.group 1 (rcat [rcharI '-', .starCls letterI, rcharI 'f',
        .starCls letterI, rplus goSpace])),
      ropt (.group 2 (rcat [rcharI '-', .starCls letterI, rcharI 'r',
        .starCls letterI, rplus goSpace])),
      .group 3 (.alt (rcharI '/') (.alt (rcharI '*') (rcharI '~')))],
    Description := "Recursive delete of root, all files, or home directory",
    Level := .Critical }

/-- First Dangerous entry of the table: `(?i)rm\s+-[a-z]*r`. -/
def patRmRecursive : DangerousPattern :=
  { Pattern := rcat [rstrI "rm", rplus goSpace, rcharI '-',
      .starCls letterI, rcharI 'r'],
    Description := "Recursive delete",
    Level := .Dangerous }

/-- dangerousPatterns contains patterns for detecting dangerous
commands, in the order of the Go source.  The fork-bomb source text
`:(){ :|:& };:` parses, under RE2 rules, as the alternation of the
literal-with-empty-group branch before the `|` and the literal branch
after it. -/
def dangerousPatterns : List DangerousPattern :=
  [ patRmCriticalTarget,
    ⟨rcat [rstrI "rm", rplus goSpace, rcharI '-', .starCls letterI,
        rstrI "rf", .starCls letterI, rplus goSpace, rcharI '/'],
      "Recursive force delete from root", .Critical⟩,
    ⟨rcat [rstrI "dd", rplus goSpace, .starCls dotAny, rstrI "of=/dev/",
        .group 1 (.alt (rstrI "sd") (.alt (rstrI "hd") (rstrI "nvme")))],
      "Direct disk write operation", .Critical⟩,
    ⟨rstrI "mkfs", "Format filesystem", .Critical⟩,
    ⟨.alt (rcat [rcharI ':', .group 1 .eps, rcharI '\x7b', rcharI ' ', rcharI ':'])
        (rstrI ":& \x7d;:"),
      "Fork bomb", .Critical⟩,
    ⟨rcat [rcharI '>', .starCls goSpace, rstrI "/dev/sd"],
      "Overwrite disk device", .Critical⟩,
    ⟨rcat [rstrI "chmod", rplus goSpace,
        ropt (.group 1 (rcat [rcharI '-', .starCls letterI, rcharI 'R',
          .starCls letterI, rplus goSpace])),
        rstrI "777", rplus goSpace, rcharI '/'],
      "Set world-writable permissions on root", .Critical⟩,
    patRmRecursive,
    ⟨rcat [rstrI "rm", rplus goSpace, rcharI '-', .starCls letterI, rcharI 'f'],
      "Force delete without confirmation", .Dangerous⟩,
    ⟨rcat [rstrI "del", rplus goSpace, rcharI '/', .cls sqI],
      "Windows force/quiet delete", .Dangerous⟩,
    ⟨rcat [rstrI "rmdir", rplus goSpace, rstrI "/s"],
      "Windows recursive directory delete", .Dangerous⟩,
    ⟨rcat [rstrI "drop", rplus goSpace,
        .group 1 (.alt (rstrI "table") (.alt (rstrI "database") (rstrI "schema")))],
      "SQL drop operation", .Dangerous⟩,
    ⟨rcat [rstrI "truncate", rplus goSpace, rstrI "table"],
      "SQL truncate operation", .Dangerous⟩,
    ⟨rcat [rstrI "delete", rplus goSpace, rstrI "from", rplus goSpace,
        rplus wordChar, .starCls goSpace,
        .group 1 (.alt .eos (.alt (rcharI ';')
          (rcat [rstrI "where", rplus goSpace, rcharI '1', .starCls goSpace,
            rcharI '=', .starCls goSpace, rcharI '1'])))],
      "SQL delete without proper WHERE clause", .Dangerous⟩,
    ⟨rcat [rcharI '>', .starCls goSpace, rstrI "/etc/"],
      "Overwrite system config file", .Dangerous⟩,
    ⟨rcat [rstrI "curl", .starCls dotAny, rcharI '|', .starCls goSpace,
        ropt (.group 1 (rstrI "ba")), rstrI "sh"],
      "Piping remote content to shell", .Dangerous⟩,
    ⟨rcat [rstrI "wget", .starCls dotAny, rcharI '|', .starCls goSpace,
        ropt (.group 1 (rstrI "ba")), rstrI "sh"],
      "Piping remote content to shell", .Dangerous⟩,
    ⟨rcat [rstrI "git", rplus goSpace,
        .group 1 (.alt (rstrI "push") (rstrI "reset")),
        rplus goSpace, .starCls dotAny, rstrI "--force"],
      "Force git operation", .Dangerous⟩,
    ⟨rcat [rstrI "git", rplus goSpace, rstrI "clean", rplus goSpace,
        rcharI '-', .starCls letterI, rcharI 'f'],
      "Force git clean", .Dangerous⟩,
    ⟨rcat [rstrI "rm", rplus goSpace], "Delete operation", .Caution⟩,
    ⟨rcat [rstrI "mv", rplus goSpace, .starCls dotAny, rplus goSpace,
        rstrI "/dev/null"],
      "Move to /dev/null (delete)", .Caution⟩,
    ⟨rcat [rstrI "chmod", rplus goSpace], "Permission change", .Caution⟩,
    ⟨rcat [rstrI "chown", rplus goSpace], "Ownership change", .Caution⟩,
    ⟨rcat [rstrI "kill", rplus goSpace, rstrI "-9"],
      "Force kill process", .Caution⟩,
    ⟨rcat [rstrI "pkill", rplus goSpace], "Kill processes by pattern", .Caution⟩,
    ⟨.alt (rstrI "shutdown") (.alt (rstrI "reboot")
        (.alt (rstrI "halt") (rstrI "poweroff"))),
      "System shutdown/reboot", .Caution⟩,
    ⟨rcat [rstrI "systemctl", rplus goSpace,
        .group 1 (.alt (rstrI "stop") (.alt (rstrI "disable") (rstrI "mask")))],
      "Stop/disable system service", .Caution⟩,
    ⟨rcat [rstrI "service", rplus goSpace, rplus wordChar, rplus goSpace,
        rstrI "stop"],
      "Stop system service", .Caution⟩,
    ⟨rcat [rstrI "iptables", rplus goSpace, rcharI '-', rcharI 'F'],
      "Flush firewall rules", .Caution⟩,
    ⟨rcat [rstrI "git", rplus goSpace, rstrI "reset", rplus goSpace,
        rstrI "--hard"],
      "Hard git reset", .Caution⟩,
    ⟨rcat [rstrI "git", rplus goSpace, rstrI "checkout", rplus goSpace,
        rstrI "--", rplus goSpace, rcharI '.'],
      "Discard all changes", .Caution⟩ ]

/-- AnalysisResult represents the result of analyzing a command for
danger. -/
structure AnalysisResult : Type where
  Level : DangerLevel
  Warnings : List String
  IsDangerous : Bool
deriving DecidableEq

/-- The loop body of Analyze: fold the pattern table over the result
accumulator, appending the description of every matching pattern and
keeping the maximum level seen (Go: `if pattern.Level > result.Level`). -/
def analyzeLoop (command : String) : List DangerousPattern → AnalysisResult → AnalysisResult
  | [], result => result
  | p :: ps, result =>
      analyzeLoop command ps
        (if matchString p.Pattern command then
          { result with
              Warnings := result.Warnings ++ [p.Description],
              Level := if result.Level < p.Level then p.Level else result.Level }
         else result)

/-- Analyze analyzes a command for potential dangers. -/
def Analyze (command : String) : AnalysisResult :=
  let result := analyzeLoop command dangerousPatterns
    { Level := .Safe, Warnings := [], IsDangerous := false }
  { result with IsDangerous := decide (DangerLevel.Dangerous ≤ result.Level) }

/-- RequiresConfirmation returns true if the command requires explicit
confirmation (Go: `result.Level >= Dangerous`). -/
def RequiresConfirmation (command : String) : Bool :=
  decide (DangerLevel.Dangerous ≤ (Analyze command).Level)

/-! ### Go strings.Contains, used by the spec's containment examples -/

/-- Does `pat` occur at the very front of the second list? -/
def occursAt : List Char → List Char → Bool
  | [], _ => true
  | _ :: _, [] => false
  | a :: as, b :: bs => a == b && occursAt as bs

/-- Does `pat` occur anywhere in the list? -/
def occursIn (pat : List Char) : List Char → Bool
  | [] => occursAt pat []
  | c :: t => occursAt pat (c :: t) || occursIn pat t

/-- Go strings.Contains: does `sub` occur as a substring of `s`? -/
def strContainsGo (s sub : String) : Bool := occursIn sub.data s.data

/-! ### internal/undo/undo.go -/

/-- UndoSuggestion represents a suggestion for undoing a command. -/
structure UndoSuggestion : Type where
  Original : String
  UndoCommand : String
  Description : String
  CanUndo : Bool
deriving DecidableEq

/-- undoPattern maps a command pattern to an undo suggestion: the
compiled regex, the function building the inverse command from the
submatch slice, and the description. -/
structure undoPattern : Type where
  Pattern : Regex
  UndoFunc : (Nat → String) → String
  Description : String

/-- The submatch slice Go passes to an UndoFunc: index 0 is the full
match, index i > 0 the text of capture group i (empty if the group did
not participate). -/
def submatches (s : String) (res : List Char × Caps) : Nat → String :=
  fun i =>
    if i = 0 then String.mk (s.data.take (s.data.length - res.1.length))
    else String.mk (res.2 i)

/-- The suggestion built from the first matching table entry. -/
def matchedSuggestion (cmd : String) (p : undoPattern) (res : List Char × Caps) : UndoSuggestion :=
  { Original := cmd, UndoCommand := p.UndoFunc (submatches cmd res),
    Description := p.Description, CanUndo := true }

/-- The suggestion returned when no table entry matches. -/
def noUndoSuggestion (cmd : String) : UndoSuggestion :=
  { Original := cmd, UndoCommand := "",
    Description := "No automatic undo available for this command",
    CanUndo := false }

/-- First undo-table entry: `^git\s+commit\s+`. -/
def uGitCommit : undoPattern :=
  { Pattern := rcat [rstr "git", rplus goSpace, rstr "commit", rplus goSpace],
    UndoFunc := fun _ => "git reset HEAD~1",
    Description := "Undo the last commit (keeps changes staged)" }

/-- undoPatterns maps command patterns to undo suggestions, in the
order of the Go source.  The leading `^` of every pattern is modelled
by `findStringSubmatch` anchoring the match at the start of the text. -/
def undoPatterns : List undoPattern :=
  [ uGitCommit,
    ⟨rcat [rstr "git", rplus goSpace, rstr "add", rplus goSpace,
        .group 1 (rplus dotAny), .eos],
      fun m => "git reset " ++ m 1, "Unstage the added files"⟩,
    ⟨rcat [rstr "git", rplus goSpace, rstr "stash",
        ropt (.group 1 (rcat [rplus goSpace, rstr "push"])), .eos],
      fun _ => "git stash pop", "Apply and remove the stash"⟩,
    ⟨rcat [rstr "git", rplus goSpace, rstr "checkout", rplus goSpace,
        rstr "-b", rplus goSpace, .group 1 (rplus goNotSpace)],
      fun m => "git checkout - && git branch -d " ++ m 1,
      "Switch back and delete the new branch"⟩,
    ⟨rcat [rstr "git", rplus goSpace, rstr "merge", rplus goSpace,
        .group 1 (rplus goNotSpace)],
      fun _ => "git reset --hard HEAD~1",
      "Undo the merge (warning: discards changes)"⟩,
    ⟨rcat [rstr "mv", rplus goSpace, .group 1 (rplus goNotSpace),
        rplus goSpace, .group 2 (rplus goNotSpace), .eos],
      fun m => "mv " ++ m 2 ++ " " ++ m 1, "Move the file back"⟩,
    ⟨rcat [rstr "cp", rplus goSpace,
        ropt (.group 1 (rcat [rchar '-', rplus lowerAZ, rplus goSpace])),
        .group 2 (rplus goNotSpace), rplus goSpace,
        .group 3 (rplus goNotSpace), .eos],
      fun m => "rm " ++ m 3, "Remove the copied file"⟩,
    ⟨rcat [rstr "mkdir", rplus goSpace,
        ropt (.group 1 (rcat [rstr "-p", rplus goSpace])),
        .group 2 (rplus goNotSpace), .eos],
      fun m => "rmdir " ++ m 2, "Remove the created directory (if empty)"⟩,
    ⟨rcat [rstr "touch", rplus goSpace, .group 1 (rplus goNotSpace), .eos],
      fun m => "rm " ++ m 1, "Remove the created file"⟩,
    ⟨rcat [rstr "ln", rplus goSpace,
        ropt (.group 1 (rcat [rchar '-', rplus lowerAZ, rplus goSpace])),
        .group 2 (rplus goNotSpace), rplus goSpace,
        .group 3 (rplus goNotSpace), .eos],
      fun m => "rm " ++ m 3, "Remove the created link"⟩,
    ⟨rcat [.group 1 (.alt (rstr "apt") (rstr "apt-get")), rplus goSpace,
        rstr "install", rplus goSpace, .group 2 (rplus dotAny), .eos],
      fun m => m 1 ++ " remove " ++ m 2, "Uninstall the package"⟩,
    ⟨rcat [rstr "brew", rplus goSpace, rstr "install", rplus goSpace,
        .group 1 (rplus dotAny), .eos],
      fun m => "brew uninstall " ++ m 1, "Uninstall the package"⟩,
    ⟨rcat [rstr "npm", rplus goSpace, rstr "install", rplus goSpace,
        ropt (.group 1 (rcat [rchar '-', .cls gOrG, rplus goSpace])),
        .group 2 (rplus dotAny), .eos],
      fun m => "npm uninstall " ++ m 1 ++ m 2, "Uninstall the package"⟩,
    ⟨rcat [rstr "pip", rplus goSpace, rstr "install", rplus goSpace,
        .group 1 (rplus dotAny), .eos],
      fun m => "pip uninstall " ++ m 1, "Uninstall the package"⟩,
    ⟨rcat [rstr "systemctl", rplus goSpace, rstr "start", rplus goSpace,
        .group 1 (rplus goNotSpace), .eos],
      fun m => "systemctl stop " ++ m 1, "Stop the service"⟩,
    ⟨rcat [rstr "systemctl", rplus goSpace, rstr "stop", rplus goSpace,
        .group 1 (rplus goNotSpace), .eos],
      fun m => "systemctl start " ++ m 1, "Start the service"⟩,
    ⟨rcat [rstr "systemctl", rplus goSpace, rstr "enable", rplus goSpace,
        .group 1 (rplus goNotSpace), .eos],
      fun m => "systemctl disable " ++ m 1, "Disable the service"⟩,
    ⟨rcat [rstr "docker", rplus goSpace, rstr "run", rplus goSpace,
        .starCls dotAny, rstr "--name", rplus goSpace,
        .group 1 (rplus goNotSpace)],
      fun m => "docker stop " ++ m 1 ++ " && docker rm " ++ m 1,
      "Stop and remove the container"⟩,
    ⟨rcat [rstr "docker", rplus goSpace, rstr "start", rplus goSpace,
        .group 1 (rplus goNotSpace), .eos],
      fun m => "docker stop " ++ m 1, "Stop the container"⟩ ]

/-- Whitespace trimmed by Go strings.TrimSpace (ASCII part of
unicode.IsSpace). -/
def goWhite (c : Char) : Bool :=
  c == ' ' || c == '\t' || c == '\n' || c == '\x0b' || c == '\x0c' || c == '\r'

/-- Go strings.TrimSpace on ASCII input: drop leading and trailing
whitespace. -/
def trimGo (s : String) : String :=
  String.mk (((s.data.dropWhile goWhite).reverse.dropWhile goWhite).reverse)

/-- The loop of GetUndoSuggestion: return the suggestion derived from
the first matching table entry, or the no-undo record. -/
def firstUndo (cmd : String) : List undoPattern → UndoSuggestion
  | [] => noUndoSuggestion cmd
  | p :: ps =>
      match findStringSubmatch p.Pattern cmd with
      | some res => matchedSuggestion cmd p res
      | none => firstUndo cmd ps

/-- GetUndoSuggestion returns an undo suggestion for a command. -/
def GetUndoSuggestion (command : String) : UndoSuggestion :=
  firstUndo (trimGo command) undoPatterns

/-- Apostrophe character, for spelling command strings that contain
single quotes. -/
def apos : String := String.mk [Char.ofNat 39]

/-! ### Order lemmas for DangerLevel -/

/-- The danger-level order is reflexive. -/
theorem dlLeRefl (a : DangerLevel) : a ≤ a := Nat.le_refl a.toNat

/-- The danger-level order is transitive. -/
theorem dlLeTrans {a b c : DangerLevel} (h1 : a ≤ b) (h2 : b ≤ c) : a ≤ c :=
  Nat.le_trans h1 h2

/-- Strict order implies order on danger levels. -/
theorem dlLeOfLt {a b : DangerLevel} (h : a < b) : a ≤ b := Nat.le_of_lt h

/-- Totality of the danger-level order. -/
theorem dlLeOfNotLt {a b : DangerLevel} (h : ¬ a < b) : b ≤ a := Nat.le_of_not_lt h

/-- Critical is the greatest danger level. -/
theorem dlLeCritical (a : DangerLevel) : a ≤ DangerLevel.Critical := by
  cases a <;> decide

/-- A level at least Critical is Critical. -/
theorem dlEqCritical {a : DangerLevel} (h : DangerLevel.Critical ≤ a) :
    a = DangerLevel.Critical := by
  cases a
  · exact absurd h (by decide)
  · exact absurd h (by decide)
  · exact absurd h (by decide)
  · rfl

/-! ### Lemmas about the classifier loop -/

/-- The classifier loop never lowers the accumulated level. -/
theorem analyzeLoop_level_mono (command : String) :
    ∀ (ps : List DangerousPattern) (res : AnalysisResult),
      res.Level ≤ (analyzeLoop command ps res).Level := by
  intro ps
  induction ps with
  | nil => intro res; exact dlLeRefl _
  | cons p ps ih =>
    intro res
    simp only [analyzeLoop]
    by_cases hm : matchString p.Pattern command = true
    · rw [if_pos hm]
      refine dlLeTrans ?_ (ih _)
      show res.Level ≤ (if res.Level < p.Level then p.Level else res.Level)
      by_cases hlt : res.Level < p.Level
      · rw [if_pos hlt]; exact dlLeOfLt hlt
      · rw [if_neg hlt]; exact dlLeRefl _
    · rw [if_neg hm]
      exact ih _

/-- The level of a matching pattern bounds the accumulated level from
below. -/
theorem analyzeLoop_level_matched (command : String) (p : DangerousPattern)
    (hmat : matchString p.Pattern command = true) :
    ∀ (ps : List DangerousPattern) (res : AnalysisResult), p ∈ ps →
      p.Level ≤ (analyzeLoop command ps res).Level := by
  intro ps
  induction ps with
  | nil => intro res h; cases h
  | cons q ps ih =>
    intro res hmem
    rcases List.mem_cons.mp hmem with heq | htail
    · subst heq
      simp only [analyzeLoop]
      rw [if_pos hmat]
      refine dlLeTrans ?_ (analyzeLoop_level_mono command ps _)
      show p.Level ≤ (if res.Level < p.Level then p.Level else res.Level)
      by_cases hlt : res.Level < p.Level
      · rw [if_pos hlt]; exact dlLeRefl _
      · rw [if_neg hlt]; exact dlLeOfNotLt hlt
    · simp only [analyzeLoop]
      by_cases hm : matchString q.Pattern command = true
      · rw [if_pos hm]; exact ih _ htail
      · rw [if_neg hm]; exact ih _ htail

/-- The classifier loop keeps every warning already accumulated. -/
theorem analyzeLoop_warn_mono (command : String) :
    ∀ (ps : List DangerousPattern) (res : AnalysisResult) (w : String),
      w ∈ res.Warnings → w ∈ (analyzeLoop command ps res).Warnings := by
  intro ps
  induction ps with
  | nil => intro res w h; exact h
  | cons p ps ih =>
    intro res w h
    simp only [analyzeLoop]
    by_cases hm : matchString p.Pattern command = true
    · rw [if_pos hm]
      exact ih _ _ (List.mem_append_left _ h)
    · rw [if_neg hm]
      exact ih _ _ h

/-- Every matching pattern contributes its description to the
warnings. -/
theorem analyzeLoop_warn_matched (command : String) (p : DangerousPattern)
    (hmat : matchString p.Pattern command = true) :
    ∀ (ps : List DangerousPattern) (res : AnalysisResult), p ∈ ps →
      p.Description ∈ (analyzeLoop command ps res).Warnings := by
  intro ps
  induction ps with
  | nil => intro res h; cases h
  | cons q ps ih =>
    intro res hmem
    rcases List.mem_cons.mp hmem with heq | htail
    · subst heq
      simp only [analyzeLoop]
      rw [if_pos hmat]
      refine analyzeLoop_warn_mono command ps _ _ ?_
      exact List.mem_append_right _ (List.mem_singleton_self _)
    · simp only [analyzeLoop]
      by_cases hm : matchString q.Pattern command = true
      · rw [if_pos hm]; exact ih _ htail
      · rw [if_neg hm]; exact ih _ htail

/-- A matching Critical pattern forces the final level to be exactly
Critical (it is a lower bound, and Critical is the top level). -/
theorem analyze_level_critical_of_match (command : String) (p : DangerousPattern)
    (hmem : p ∈ dangerousPatterns) (hlvl : p.Level = DangerLevel.Critical)
    (hmat : matchString p.Pattern command = true) :
    (Analyze command).Level = DangerLevel.Critical := by
  have hlow : p.Level ≤ (Analyze command).Level :=
    analyzeLoop_level_matched command p hmat dangerousPatterns
      { Level := .Safe, Warnings := [], IsDangerous := false } hmem
  rw [hlvl] at hlow
  exact dlEqCritical hlow

/-! ### Lemmas about the undo loop -/

/-- When no entry of the table matches, the loop returns the no-undo
record. -/
theorem firstUndo_of_no_match (cmd : String) :
    ∀ ps : List undoPattern,
      (∀ p ∈ ps, (findStringSubmatch p.Pattern cmd).isNone = true) →
      firstUndo cmd ps = noUndoSuggestion cmd := by
  intro ps
  induction ps with
  | nil => intro h; rfl
  | cons p ps ih =>
    intro h
    have hp := h p (List.mem_cons_self p ps)
    have hn : findStringSubmatch p.Pattern cmd = none :=
      Option.isNone_iff_eq_none.mp hp
    simp only [firstUndo]
    rw [hn]
    exact ih fun q hq => h q (List.mem_cons_of_mem _ hq)

/-! ### Claims -/

/-- Claim C1 (code bug): the spec and the repository's own tests
require `cp -r src/ dest/` to be undone by a command containing
`rm -r`, but the cp table entry captures the flag group and never uses
it: the code answers `rm dest/` with no `-r`, while the flag-free copy
correctly yields a plain `rm`. -/
theorem C1_cp_flag_not_propagated :
    (GetUndoSuggestion "cp -r src/ dest/").CanUndo = true ∧
    (GetUndoSuggestion "cp -r src/ dest/").UndoCommand = "rm dest/" ∧
    strContainsGo (GetUndoSuggestion "cp -r src/ dest/").UndoCommand "rm -r" = false ∧
    (GetUndoSuggestion "cp src.txt dest.txt").UndoCommand = "rm dest.txt" ∧
    strContainsGo (GetUndoSuggestion "cp src.txt dest.txt").UndoCommand "rm -r" = false := by
  decide

/-- Claim C2: `rm -rf /` is Critical and dangerous, its warnings
include both the broad Dangerous description and the narrow Critical
description; and in general any command matching both a Dangerous and
a Critical table entry reports both descriptions and level Critical. -/
theorem C2_critical_aggregation :
    (Analyze "rm -rf /").Level = DangerLevel.Critical ∧
    (Analyze "rm -rf /").IsDangerous = true ∧
    "Recursive delete of root, all files, or home directory" ∈ (Analyze "rm -rf /").Warnings ∧
    "Recursive delete" ∈ (Analyze "rm -rf /").Warnings ∧
    (∀ (command : String) (pD pC : DangerousPattern),
      pD ∈ dangerousPatterns → pC ∈ dangerousPatterns →
      pD.Level = DangerLevel.Dangerous → pC.Level = DangerLevel.Critical →
      matchString pD.Pattern command = true →
      matchString pC.Pattern command = true →
      pD.Description ∈ (Analyze command).Warnings ∧
      pC.Description ∈ (Analyze command).Warnings ∧
      (Analyze command).Level = DangerLevel.Critical) := by
  refine ⟨by decide, by decide, by decide, by decide, ?_⟩
  intro command pD pC hmemD hmemC _ hlvlC hmatD hmatC
  refine ⟨?_, ?_, ?_⟩
  · exact analyzeLoop_warn_matched command pD hmatD dangerousPatterns _ hmemD
  · exact analyzeLoop_warn_matched command pC hmatC dangerousPatterns _ hmemC
  · exact analyze_level_critical_of_match command pC hmemC hlvlC hmatC

/-- Witness for C2: instantiate the general aggregation statement at
`rm -rf /` with the broad Dangerous `rm -r` entry and the narrow
Critical target entry of the table. -/
theorem C2_witness :
    patRmRecursive ∈ dangerousPatterns ∧
    patRmCriticalTarget ∈ dangerousPatterns ∧
    patRmRecursive.Level = DangerLevel.Dangerous ∧
    patRmCriticalTarget.Level = DangerLevel.Critical ∧
    matchString patRmRecursive.Pattern "rm -rf /" = true ∧
    matchString patRmCriticalTarget.Pattern "rm -rf /" = true ∧
    (patRmRecursive.Description ∈ (Analyze "rm -rf /").Warnings ∧
     patRmCriticalTarget.Description ∈ (Analyze "rm -rf /").Warnings ∧
     (Analyze "rm -rf /").Level = DangerLevel.Critical) := by
  refine ⟨?m1, ?m2, rfl, rfl, ?m3, ?m4, ?main⟩
  case m1 => simp [dangerousPatterns]
  case m2 => simp [dangerousPatterns]
  case m3 => decide
  case m4 => decide
  case main =>
    exact C2_critical_aggregation.2.2.2.2 "rm -rf /" patRmRecursive
      patRmCriticalTarget (by simp [dangerousPatterns]) (by simp [dangerousPatterns])
      rfl rfl (by decide) (by decide)

/-- Claim C3: `rm -rf ./folder` is Dangerous, not Critical, since the
target starts with neither `/`, `*` nor `~`. -/
theorem C3_rm_rf_folder_dangerous :
    (Analyze "rm -rf ./folder").Level = DangerLevel.Dangerous := by
  decide

/-- Claim C4: the confirmation helper agrees with the classification
for every command string. -/
theorem C4_requires_confirmation_consistent :
    ∀ command : String,
      (RequiresConfirmation command = true ↔
        DangerLevel.Dangerous ≤ (Analyze command).Level) := by
  intro command
  simp [RequiresConfirmation]

/-- Claim C5: Analyze is a total function (every string maps to a
result), and the empty string yields Safe with no warnings and
isDangerous false. -/
theorem C5_total_and_empty_safe :
    Analyze "" = { Level := .Safe, Warnings := [], IsDangerous := false } ∧
    ∀ s : String, ∃ r : AnalysisResult, Analyze s = r :=
  ⟨by decide, fun s => ⟨Analyze s, rfl⟩⟩

/-- Claim C6: whenever no undo-table entry matches the trimmed
command, the advisor reports canUndo false, an empty undo command and
the no-automatic-undo description; read-only commands such as `ls`,
`cat` and `echo` are concrete such cases. -/
theorem C6_no_match_no_undo :
    (∀ command : String,
      (∀ p ∈ undoPatterns,
        (findStringSubmatch p.Pattern (trimGo command)).isNone = true) →
      GetUndoSuggestion command =
        { Original := trimGo command, UndoCommand := "",
          Description := "No automatic undo available for this command",
          CanUndo := false }) ∧
    (GetUndoSuggestion "ls").CanUndo = false ∧
    (GetUndoSuggestion "ls").UndoCommand = "" ∧
    (GetUndoSuggestion "ls").Description = "No automatic undo available for this command" ∧
    (GetUndoSuggestion "cat file.txt").CanUndo = false ∧
    (GetUndoSuggestion "echo hello").CanUndo = false := by
  refine ⟨?gen, by decide, by decide, by decide, by decide, by decide⟩
  intro command h
  exact firstUndo_of_no_match (trimGo command) undoPatterns h

/-- Witness for C6: no undo-table entry matches `ls`, and the advisor
answers the no-undo record for it. -/
theorem C6_witness :
    (∀ p ∈ undoPatterns,
      (findStringSubmatch p.Pattern (trimGo "ls")).isNone = true) ∧
    GetUndoSuggestion "ls" =
      { Original := trimGo "ls", UndoCommand := "",
        Description := "No automatic undo available for this command",
        CanUndo := false } :=
  ⟨by decide, C6_no_match_no_undo.1 "ls" (by decide)⟩

/-- Claim C7: the npm undo command keeps the global flag and the
package name with no double space, and omits the flag cleanly when it
is absent. -/
theorem C7_npm_global_flag :
    (GetUndoSuggestion "npm install -g typescript").UndoCommand = "npm uninstall -g typescript" ∧
    strContainsGo (GetUndoSuggestion "npm install -g typescript").UndoCommand "-g" = true ∧
    strContainsGo (GetUndoSuggestion "npm install -g typescript").UndoCommand "typescript" = true ∧
    strContainsGo (GetUndoSuggestion "npm install -g typescript").UndoCommand "  " = false ∧
    (GetUndoSuggestion "npm install typescript").UndoCommand = "npm uninstall typescript" ∧
    strContainsGo (GetUndoSuggestion "npm install typescript").UndoCommand "  " = false := by
  decide

/-- Claim C8: the advisor trims its input and then walks the table in
order, returning the suggestion of the first matching entry; the
entries after the first match never influence the result (the tail of
the table is universally quantified in the last part). -/
theorem C8_trim_then_first_match :
    (∀ command : String,
      GetUndoSuggestion command = firstUndo (trimGo command) undoPatterns) ∧
    GetUndoSuggestion "   git commit -m msg   " = GetUndoSuggestion "git commit -m msg" ∧
    (∀ (cmd : String) (p : undoPattern) (ps : List undoPattern)
      (res : List Char × Caps),
      findStringSubmatch p.Pattern cmd = some res →
      firstUndo cmd (p :: ps) = matchedSuggestion cmd p res) := by
  refine ⟨fun _ => rfl, by decide, ?first⟩
  intro cmd p ps res h
  simp only [firstUndo]
  rw [h]

/-- Witness for C8: the first table entry matches the already-trimmed
`git commit -m msg`, and the loop answers that entry's suggestion no
matter what follows it. -/
theorem C8_witness :
    findStringSubmatch uGitCommit.Pattern "git commit -m msg" =
      some ("-m msg".data, capsEmpty) ∧
    firstUndo "git commit -m msg" [uGitCommit] =
      matchedSuggestion "git commit -m msg" uGitCommit ("-m msg".data, capsEmpty) :=
  ⟨rfl, C8_trim_then_first_match.2.2 "git commit -m msg" uGitCommit []
    ("-m msg".data, capsEmpty) rfl⟩

/-- Claim C9: an rm whose first target begins with `/`, `*` or `~` is
Critical whatever follows, and in particular without any recursive or
force flag. -/
theorem C9_rm_special_target_critical :
    (∀ s : String, (Analyze ("rm /" ++ s)).Level = DangerLevel.Critical) ∧
    (∀ s : String, (Analyze ("rm *" ++ s)).Level = DangerLevel.Critical) ∧
    (∀ s : String, (Analyze ("rm ~" ++ s)).Level = DangerLevel.Critical) ∧
    (Analyze "rm /tmp/file.txt").Level = DangerLevel.Critical ∧
    (Analyze "rm *.txt").Level = DangerLevel.Critical := by
  have hmem : patRmCriticalTarget ∈ dangerousPatterns := by
    simp [dangerousPatterns]
  refine ⟨?s1, ?s2, ?s3, by decide, by decide⟩
  case s1 =>
    intro s
    exact analyze_level_critical_of_match ("rm /" ++ s) patRmCriticalTarget
      hmem rfl rfl
  case s2 =>
    intro s
    exact analyze_level_critical_of_match ("rm *" ++ s) patRmCriticalTarget
      hmem rfl rfl
  case s3 =>
    intro s
    exact analyze_level_critical_of_match ("rm ~" ++ s) patRmCriticalTarget
      hmem rfl rfl

/-- Claim C10: undo matching is case-sensitive and anchored at the
start of the trimmed command: the upper-cased commit command and the
sudo-prefixed commit command have no undo, while the plain lowercase
commit command does. -/
theorem C10_case_sensitive_anchored :
    (GetUndoSuggestion ("GIT COMMIT -m " ++ apos ++ "msg" ++ apos)).CanUndo = false ∧
    (GetUndoSuggestion ("GIT COMMIT -m " ++ apos ++ "msg" ++ apos)).UndoCommand = "" ∧
    (GetUndoSuggestion ("sudo git commit -m " ++ apos ++ "msg" ++ apos)).CanUndo = false ∧
    (GetUndoSuggestion ("sudo git commit -m " ++ apos ++ "msg" ++ apos)).UndoCommand = "" ∧
    (GetUndoSuggestion ("git commit -m " ++ apos ++ "msg" ++ apos)).CanUndo = true := by
  decide
